import Mathlib

/-!
Verification of the ATS address-selection and bandwidth-allocation subsystem
(`src/ats/gnunet-service-ats_addresses.c` and the reinforcement-learning solver
plugin `src/ats/libgnunet_plugin_ats_ril.c`).

Shallow embedding conventions:
* the multihashmap of addresses becomes a list of `ATS_Address` records; the
  per-peer bucket visited by `GNUNET_CONTAINER_multihashmap_get_multiple` is the
  list filtered by the peer field, in insertion order (new records are appended);
* heap object identity (pointer comparison) is modelled by a fresh numeric `aid`
  handed out by the registry state;
* C unsigned arithmetic is `Nat` with explicit `% 2^w` where wrap-around can
  occur; `htonl`/`ntohl` round-trips cancel and are dropped;
* IPv4 `s_addr` words are modelled octet-wise (network byte order, `o1` is the
  leading octet); 32-bit bitwise AND and equality act componentwise, which is
  exact because both operations are octet-local;
* the RL solver's `double` arithmetic is modelled with `ℚ`; the claims treated
  here concern the structure of the computations, not float rounding.
-/

namespace GnunetAts

/-! ### Data model: `struct ATS_Address` and the registry state -/

/-- One entry of the `struct GNUNET_ATS_Information` array, discriminated by
the `type` field exactly as the `switch` in `GAS_addresses_update` does. -/
inductive AtsInfo where
  | utilizationUp (v : Nat)
  | utilizationDown (v : Nat)
  | qualityNetDelay (v : Nat)
  | qualityNetDistance (v : Nat)
  | costWan (v : Nat)
  | costLan (v : Nat)
  | costWlan (v : Nat)
  | unknown (t v : Nat)
  deriving DecidableEq, Repr

/-- `struct ATS_Address`. `aid` models the heap identity of the record,
`addr` the `addr`/`addr_len` pair, bandwidths are in host byte order. -/
structure ATS_Address where
  aid : Nat
  peer : Nat
  plugin : String
  addr : List Nat
  sessionId : Nat
  ats : List AtsInfo
  atspLatency : Nat
  atspUtilizationIn : Nat
  atspUtilizationOut : Nat
  atspDistance : Nat
  atspCostWan : Nat
  atspCostLan : Nat
  atspCostWlan : Nat
  assignedBwIn : Nat
  assignedBwOut : Nat
  active : Bool
  deriving DecidableEq, Repr

/-- The file-scope state of `gnunet-service-ats_addresses.c`: the `addresses`
multihashmap, `active_addr_count`, and the two WAN quotas read at init. -/
structure RegState where
  addrs : List ATS_Address
  activeAddrCount : Nat
  wanQuotaIn : Nat
  wanQuotaOut : Nat
  nextId : Nat
  deriving DecidableEq, Repr

/-- Addresses in the peer's hashmap bucket, in insertion order. -/
def peerAddrs (st : RegState) (p : Nat) : List ATS_Address :=
  st.addrs.filter (fun a => a.peer == p)

/-- Number of addresses of peer `p` that are currently active. -/
def countActivePeer (st : RegState) (p : Nat) : Nat :=
  ((peerAddrs st p).filter (fun a => a.active)).length

/-- Number of active addresses across the whole registry. -/
def countActive (st : RegState) : Nat :=
  (st.addrs.filter (fun a => a.active)).length

/-- Replace the first list element whose `aid` matches. -/
def replaceByAid (i : Nat) (v : ATS_Address) : List ATS_Address → List ATS_Address
  | [] => []
  | x :: xs => if x.aid == i then v :: xs else x :: replaceByAid i v xs

/-- Remove the first list element whose `aid` matches. -/
def removeByAid (i : Nat) : List ATS_Address → List ATS_Address
  | [] => []
  | x :: xs => if x.aid == i then xs else x :: removeByAid i xs

/-- Look up an address record by its identity. -/
def findByAid (l : List ATS_Address) (i : Nat) : Option ATS_Address :=
  l.find? (fun x => x.aid == i)

/-! ### `update_bw_it` / `recalculate_assigned_bw` -/

/-- Body of `update_bw_it` for a single address: active addresses get
`wan_quota / active_addr_count` in each direction, others are untouched. -/
def update_bw_addr (quotaIn quotaOut cnt : Nat) (a : ATS_Address) : ATS_Address :=
  if a.active then
    { a with assignedBwIn := quotaIn / cnt, assignedBwOut := quotaOut / cnt }
  else a

/-- `recalculate_assigned_bw`: iterate `update_bw_it` over the whole map. -/
def recalculate_assigned_bw (st : RegState) : RegState :=
  { st with
    addrs := st.addrs.map (update_bw_addr st.wanQuotaIn st.wanQuotaOut st.activeAddrCount) }

/-- Downstream payload that `update_bw_it` pushes for one active address: the
same `(peer, address, bw_out, bw_in)` snapshot goes to
`GAS_scheduling_transmit_address_suggestion`, `GAS_reservations_set_bandwidth`
(which only takes `bw_in`) and `GAS_performance_notify_clients`. -/
structure NotifyTriple where
  peer : Nat
  aid : Nat
  bwOut : Nat
  bwIn : Nat
  deriving DecidableEq, Repr

/-- Calls to `GAS_scheduling_transmit_address_suggestion` made by one run of
`recalculate_assigned_bw`, in map order. -/
def schedulingCalls (st : RegState) : List NotifyTriple :=
  (st.addrs.filter (fun a => a.active)).map
    (fun a => ⟨a.peer, a.aid, st.wanQuotaOut / st.activeAddrCount,
               st.wanQuotaIn / st.activeAddrCount⟩)

/-- Calls to `GAS_reservations_set_bandwidth` made by one run of
`recalculate_assigned_bw` (peer, inbound bandwidth). -/
def reservationCalls (st : RegState) : List (Nat × Nat) :=
  (schedulingCalls st).map (fun t => (t.peer, t.bwIn))

/-- Calls to `GAS_performance_notify_clients` made by one run of
`recalculate_assigned_bw`. -/
def performanceCalls (st : RegState) : List NotifyTriple :=
  schedulingCalls st

/-! ### `destroy_address`, `compare_address_it`, `GAS_addresses_update` -/

/-- `destroy_address`: unlink the record; if it was active, decrement
`active_addr_count` and report that bandwidth must be recalculated. -/
def destroy_address (st : RegState) (i : Nat) : RegState × Bool :=
  match findByAid st.addrs i with
  | none => (st, false)
  | some a =>
    let st' := { st with addrs := removeByAid i st.addrs }
    if a.active then
      ({ st' with activeAddrCount := st'.activeAddrCount - 1 }, true)
    else (st', false)

/-- Match test of `compare_address_it`: the stored record `x` is equivalent to
the search record when the `(plugin, addr, addr_len)` triple is byte-equal, or
when the session ids agree and the searched session id is nonzero. -/
def compare_address (search x : ATS_Address) : Bool :=
  (x.addr.length == search.addr.length && x.plugin == search.plugin
    && x.addr == search.addr)
  || (x.sessionId == search.sessionId && search.sessionId != 0)

/-- `find_address`: first record in the peer's bucket equivalent to `search`. -/
def find_address (st : RegState) (p : Nat) (search : ATS_Address) : Option ATS_Address :=
  st.addrs.find? (fun x => x.peer == p && compare_address search x)

/-- Replace the first record in the peer's bucket equivalent to `search`. -/
def replaceFirstMatch (p : Nat) (search v : ATS_Address) :
    List ATS_Address → List ATS_Address
  | [] => []
  | x :: xs =>
    if x.peer == p && compare_address search x then v :: xs
    else x :: replaceFirstMatch p search v xs

/-- Fresh record built at the top of `GAS_addresses_update` (`GNUNET_malloc`
zero-fills all quality fields). -/
def mkAddr (i p : Nat) (plugin : String) (addr : List Nat) (sessionId : Nat)
    (atsi : List AtsInfo) : ATS_Address :=
  { aid := i, peer := p, plugin := plugin, addr := addr, sessionId := sessionId
    ats := atsi, atspLatency := 0, atspUtilizationIn := 0, atspUtilizationOut := 0
    atspDistance := 0, atspCostWan := 0, atspCostLan := 0, atspCostWlan := 0
    assignedBwIn := 0, assignedBwOut := 0, active := false }

/-- One iteration of the metric `switch` in `GAS_addresses_update`:
last-write-wins overwrite; unknown kinds only log. -/
def applyAtsInfo (a : ATS_Address) : AtsInfo → ATS_Address
  | .utilizationUp v => { a with atspUtilizationOut := v }
  | .utilizationDown v => { a with atspUtilizationIn := v }
  | .qualityNetDelay v => { a with atspLatency := v }
  | .qualityNetDistance v => { a with atspDistance := v }
  | .costWan v => { a with atspCostWan := v }
  | .costLan v => { a with atspCostLan := v }
  | .costWlan v => { a with atspCostWlan := v }
  | .unknown _ _ => a

/-- The metric loop of `GAS_addresses_update`. -/
def applyAtsList (atsi : List AtsInfo) (a : ATS_Address) : ATS_Address :=
  atsi.foldl applyAtsInfo a

/-- `GAS_addresses_update`: find an equivalent record; merge into it (session
id and metric array are overwritten, then the metric loop runs), or insert the
fresh record when nothing matches. -/
def GAS_addresses_update (st : RegState) (p : Nat) (plugin : String)
    (addr : List Nat) (sessionId : Nat) (atsi : List AtsInfo) : RegState :=
  let aa := mkAddr st.nextId p plugin addr sessionId atsi
  match find_address st p aa with
  | none =>
    { st with addrs := st.addrs ++ [applyAtsList atsi aa], nextId := st.nextId + 1 }
  | some old =>
    { st with
      addrs := replaceFirstMatch p aa
        (applyAtsList atsi { old with sessionId := sessionId, ats := atsi }) st.addrs }

/-! ### `destroy_by_session_id` / `GAS_addresses_destroy` -/

/-- The query record built on the stack by `GAS_addresses_destroy`. -/
structure DestroyQuery where
  peer : Nat
  plugin : String
  addr : List Nat
  sessionId : Nat
  deriving DecidableEq, Repr

/-- `destroy_by_session_id` applied to the bucket entry with identity `i`:
three-way dispatch between exact-address destroy, session downgrade, and
no-op. -/
def destroy_by_session_id (info : DestroyQuery) (st : RegState) (i : Nat) : RegState :=
  match findByAid st.addrs i with
  | none => st
  | some aa =>
    if info.sessionId == 0 && info.plugin == aa.plugin
        && aa.addr.length == info.addr.length && aa.addr == info.addr then
      let r := destroy_address st i
      if r.2 then recalculate_assigned_bw r.1 else r.1
    else if aa.sessionId != info.sessionId then st
    else
      let a1 := { aa with sessionId := 0 }
      let st1 := { st with addrs := replaceByAid i a1 st.addrs }
      let st2 :=
        if a1.active then
          recalculate_assigned_bw
            { st1 with
              addrs := replaceByAid i { a1 with active := false } st1.addrs
              activeAddrCount := st1.activeAddrCount - 1 }
        else st1
      if a1.addr.length == 0 then (destroy_address st2 i).1 else st2

/-- `GAS_addresses_destroy`: run `destroy_by_session_id` on every entry of the
peer's bucket. -/
def GAS_addresses_destroy (st : RegState) (p : Nat) (plugin : String)
    (addr : List Nat) (sessionId : Nat) : RegState :=
  ((peerAddrs st p).map (fun a => a.aid)).foldl
    (destroy_by_session_id ⟨p, plugin, addr, sessionId⟩) st

/-! ### `find_address_it` / `GAS_addresses_request_address` -/

/-- One step of `find_address_it`: keep the incumbent `ab` unless the candidate
`aa` wins by the nonzero-inbound-bandwidth rule, lower distance, or lower
latency. -/
def find_address_it (acc : Option ATS_Address) (aa : ATS_Address) : Option ATS_Address :=
  match acc with
  | none => some aa
  | some ab =>
    if ab.assignedBwIn == 0 && decide (0 < aa.assignedBwIn) then some aa
    else if decide (ab.atspDistance > aa.atspDistance) then some aa
    else if decide (ab.atspLatency > aa.atspLatency) then some aa
    else some ab

/-- The scan `GNUNET_CONTAINER_multihashmap_get_multiple (…, find_address_it)`
over the peer's bucket. -/
def findBest (st : RegState) (p : Nat) : Option ATS_Address :=
  (peerAddrs st p).foldl find_address_it none

/-- `GAS_addresses_request_address`: pick the best address; if it is not yet
active, activate it, bump `active_addr_count` and recalculate; otherwise only
re-announce (a pure notification, no state change). -/
def GAS_addresses_request_address (st : RegState) (p : Nat) : RegState :=
  match findBest st p with
  | none => st
  | some aa =>
    if aa.active then st
    else
      recalculate_assigned_bw
        { st with
          addrs := replaceByAid aa.aid { aa with active := true } st.addrs
          activeAddrCount := st.activeAddrCount + 1 }

/-! ### `GAS_addresses_type`: the network classifier

IPv4 `s_addr` words are modelled as four octets in network order; `&` and `==`
on 32-bit words act octet-wise. The interface table (`net_head` list of
`struct ATS_Network`) holds the IPv4 entries; entries of another address
family never match an IPv4 address because of the `addrlen != cur->length`
check, so they are omitted from the model. -/

/-- An IPv4 address as its four network-order octets. -/
structure Ip4 where
  o1 : Nat
  o2 : Nat
  o3 : Nat
  o4 : Nat
  deriving DecidableEq, Repr

/-- Octet-wise 32-bit bitwise AND. -/
def Ip4.land (a b : Ip4) : Ip4 :=
  ⟨a.o1 &&& b.o1, a.o2 &&& b.o2, a.o3 &&& b.o3, a.o4 &&& b.o4⟩

/-- One IPv4 entry of the interface table: the network and its netmask as
computed by `interface_proc`. -/
structure ATS_Network where
  network : Ip4
  netmask : Ip4
  deriving DecidableEq, Repr

/-- The IPv4 loopback test of `GAS_addresses_type`:
`((s_addr & htonl(0xff000000)) & htonl(0x7f000000)) == htonl(0x7f000000)`.
Only the leading octet contributes; the other octets are ANDed with `0x00`
on both sides. -/
def loopback4 (a : Ip4) : Bool :=
  (a.o1 &&& 0xff) &&& 0x7f == 0x7f

/-- The per-entry LAN test of `GAS_addresses_type`:
`((s_addr & mask) & net) == net`, octet-wise. -/
def lanMatch (a : Ip4) (e : ATS_Network) : Bool :=
  (a.land e.netmask).land e.network == e.network

/-- The network classes distinguished by `GAS_addresses_type`. -/
inductive NetworkType where
  | loopback
  | lan
  | wan
  deriving DecidableEq, Repr

/-- `GAS_addresses_type` for an IPv4 address: loopback test first; otherwise
scan the interface table while `type == GNUNET_ATS_NET_UNSPECIFIED` (so the
first matching entry wins); default WAN. -/
def GAS_addresses_type (table : List ATS_Network) (a : Ip4) : NetworkType :=
  if loopback4 a then .loopback
  else
    match table.find? (lanMatch a) with
    | some _ => .lan
    | none => .wan

/-- Modelled from the spec (for the refinement comparison of claim C3 only):
classify returns LAN iff some entry satisfies `(addr & mask) == network`.
This is the spec's wording, not the code's test. -/
def specClassify (table : List ATS_Network) (a : Ip4) : NetworkType :=
  if loopback4 a then .loopback
  else
    match table.find? (fun e => a.land e.netmask == e.network) with
    | some _ => .lan
    | none => .wan

end GnunetAts

namespace GnunetRil

/-! ### The RL solver plugin (`libgnunet_plugin_ats_ril.c`)

`double` values are modelled with `ℚ`; `RIL_FEATURES_ADDRESS_COUNT` is
`3 + q` where `q` stands for `GNUNET_ATS_QualityPropertiesCount` (the header
defining the constant is not part of this tree, so it is kept abstract), and
`RIL_FEATURES_NETWORK_COUNT = 4`. -/

/-- `RIL_ACTION_TYPE_NUM`: the number of fixed (non-switch) actions. -/
def RIL_ACTION_TYPE_NUM : Nat := 9

/-- `RIL_FEATURES_ADDRESS_COUNT = 3 + GNUNET_ATS_QualityPropertiesCount`. -/
def featAddr (q : Nat) : Nat := 3 + q

/-- `RIL_FEATURES_NETWORK_COUNT`. -/
def RIL_FEATURES_NETWORK_COUNT : Nat := 4

/-- A zero-filled fresh vector slice, as allocated by `GNUNET_array_grow`. -/
def zeros (k : Nat) : List ℚ := List.replicate k 0

/-- The modification selector of `agent_modify_eligibility`. -/
inductive RilEMod where
  | eSet
  | eZero
  | eAccumulate
  | eReplace
  deriving DecidableEq, Repr

/-- `agent_modify_eligibility`: the per-component update applied to every slot
of the eligibility-trace vector. Note that `RIL_E_SET` assigns `γ·λ` to each
component (`e[i] = gamma * lambda` in the source). -/
def agent_modify_eligibility (gamma lambda : ℚ) (mod : RilEMod) (e : List ℚ) : List ℚ :=
  e.map fun x =>
    match mod with
    | .eAccumulate => x + 1
    | .eReplace => 1
    | .eSet => gamma * lambda
    | .eZero => 0

/-- The eligibility-trace pipeline of one SARSA `agent_step`: `RIL_E_SET` at
the top of the step, `RIL_E_ACCUMULATE` after the weight update. -/
def sarsaStepEligibility (gamma lambda : ℚ) (e : List ℚ) : List ℚ :=
  agent_modify_eligibility gamma lambda .eAccumulate
    (agent_modify_eligibility gamma lambda .eSet e)

/-! ### Bandwidth actions (`envi_action_bw_*`)

`min_bw` is `ntohl (GNUNET_CONSTANTS_DEFAULT_BW_IN_OUT.value__)`; the constant
lives outside this tree, so it is a parameter. `agent->bw_in`/`bw_out` are
`unsigned long long` (64-bit); `min_bw` and `5 * min_bw` are computed in
`uint32_t`. The model assumes the stored bandwidth is a representable
`unsigned long long`, i.e. below `2^64`. -/

/-- The agent's bandwidth pair (`agent->bw_in`, `agent->bw_out`). -/
structure BwPair where
  bwIn : Nat
  bwOut : Nat
  deriving DecidableEq, Repr

/-- Scalar computation of `envi_action_bw_halven`: halve, clamped below by
`min_bw`. -/
def bw_halven (minBw bw : Nat) : Nat :=
  let newBw := bw / 2
  if newBw < minBw then minBw else newBw

/-- Scalar computation of `envi_action_bw_dec`: `bw - 5*min_bw` in unsigned
64-bit arithmetic (wrapping), clamped below by `min_bw`. -/
def bw_dec (minBw bw : Nat) : Nat :=
  let newBw := (bw + 2 ^ 64 - (5 * minBw) % 2 ^ 32) % 2 ^ 64
  if newBw < minBw then minBw else newBw

/-- Scalar computation of `envi_action_bw_inc`: `bw + 5*min_bw` in unsigned
64-bit arithmetic. -/
def bw_inc (minBw bw : Nat) : Nat :=
  (bw + (5 * minBw) % 2 ^ 32) % 2 ^ 64

/-- `envi_action_bw_halven` on the agent's bandwidth pair, for either
direction (`direction_in = true` is inbound). -/
def envi_action_bw_halven (dirIn : Bool) (minBw : Nat) (a : BwPair) : BwPair :=
  if dirIn then { a with bwIn := bw_halven minBw a.bwIn }
  else { a with bwOut := bw_halven minBw a.bwOut }

/-- `envi_action_bw_dec` on the agent's bandwidth pair. -/
def envi_action_bw_dec (dirIn : Bool) (minBw : Nat) (a : BwPair) : BwPair :=
  if dirIn then { a with bwIn := bw_dec minBw a.bwIn }
  else { a with bwOut := bw_dec minBw a.bwOut }

/-- `envi_action_bw_inc` on the agent's bandwidth pair. -/
def envi_action_bw_inc (dirIn : Bool) (minBw : Nat) (a : BwPair) : BwPair :=
  if dirIn then { a with bwIn := bw_inc minBw a.bwIn }
  else { a with bwOut := bw_inc minBw a.bwOut }

/-! ### Weight-matrix resize (`GAS_ril_address_add` / `GAS_ril_address_delete`) -/

/-- The learning state of a `struct RIL_Peer_Agent` that the resize operations
touch: the weight matrix `W` (`n` action rows of `m` feature columns), the old
state vector `s_old`, the eligibility trace `e` and the last action `a_old`
(`-1` is `RIL_ACTION_INVALID`). -/
structure Agent where
  W : List (List ℚ)
  m : Nat
  n : Nat
  sOld : List ℚ
  e : List ℚ
  aOld : Int
  deriving DecidableEq, Repr

/-- Well-formed agent for `k` addresses: dimensions follow
`n = RIL_ACTION_TYPE_NUM + k` and `m = networks*4 + k*(3+q)`. -/
def AgentWF (q networksCount k : Nat) (ag : Agent) : Prop :=
  ag.n = RIL_ACTION_TYPE_NUM + k
  ∧ ag.m = networksCount * RIL_FEATURES_NETWORK_COUNT + k * featAddr q
  ∧ ag.W.length = ag.n
  ∧ (∀ r ∈ ag.W, r.length = ag.m)
  ∧ ag.sOld.length = ag.m
  ∧ ag.e.length = ag.m

/-- `ril_cut_from_vector`: copy the `hole_start` elements before the hole and
the `old_length - hole_start - hole_length` elements after it. -/
def ril_cut_from_vector (holeStart holeLen oldLen : Nat) (l : List ℚ) : List ℚ :=
  l.take holeStart ++ (l.drop (holeStart + holeLen)).take (oldLen - holeStart - holeLen)

/-- The matrix-resize portion of `GAS_ril_address_add`: `GNUNET_array_grow`
extends `W` by one zeroed row at the end, every existing row, `s_old` and `e`
by `3+q` zeroed columns at the end (existing entries are preserved up to the
old size `agent->m`). -/
def GAS_ril_address_add_matrix (q : Nat) (ag : Agent) : Agent :=
  let fc := featAddr q
  let mNew := ag.m + fc
  { W := ag.W.map (fun row => row.take ag.m ++ zeros fc) ++ [zeros mNew]
    m := mNew
    n := ag.n + 1
    sOld := ag.sOld.take ag.m ++ zeros fc
    e := ag.e.take ag.m ++ zeros fc
    aOld := ag.aOld }

/-- The matrix-resize portion of `GAS_ril_address_delete` for the address at
list index `idx`: cut the `3+q` feature columns of that address out of every
row and of `s_old`/`e`, drop the switch-action row `RIL_ACTION_TYPE_NUM + idx`,
and correct `a_old` (decrement higher switch actions, invalidate an exact
match). -/
def GAS_ril_address_delete_matrix (networksCount q idx : Nat) (ag : Agent) : Agent :=
  let fc := featAddr q
  let hs := networksCount * RIL_FEATURES_NETWORK_COUNT + idx * fc
  let W1 := ag.W.map (ril_cut_from_vector hs fc ag.m)
  let W2 := W1.take (RIL_ACTION_TYPE_NUM + idx) ++
      (W1.drop (RIL_ACTION_TYPE_NUM + idx + 1)).take (ag.n - (RIL_ACTION_TYPE_NUM + idx) - 1)
  { W := W2
    m := ag.m - fc
    n := ag.n - 1
    sOld := ril_cut_from_vector hs fc ag.m ag.sOld
    e := ril_cut_from_vector hs fc ag.m ag.e
    aOld :=
      if ((RIL_ACTION_TYPE_NUM + idx : Nat) : Int) < ag.aOld then ag.aOld - 1
      else if ag.aOld == ((RIL_ACTION_TYPE_NUM + idx : Nat) : Int) then -1
      else ag.aOld }

/-! ### `envi_set_active_suggestion` -/

/-- The fields of a `struct ATS_Address` that `envi_set_active_suggestion`
reads or writes. -/
structure SugAddr where
  active : Bool
  bwIn : Nat
  bwOut : Nat
  deriving DecidableEq, Repr

/-- The agent fields involved in suggestions; `addressInuse` holds the
identity of `agent->address_inuse` (`none` is `NULL`). -/
structure SugAgent where
  active : Bool
  bwIn : Nat
  bwOut : Nat
  addressInuse : Option Nat
  deriving DecidableEq, Repr

/-- Environment of one agent: its state plus the address records it can
mutate, keyed by identity. -/
structure SugEnv where
  agent : SugAgent
  store : List (Nat × SugAddr)
  deriving DecidableEq, Repr

/-- Mutate the record with identity `i` in place. -/
def storeSet (s : List (Nat × SugAddr)) (i : Nat) (f : SugAddr → SugAddr) :
    List (Nat × SugAddr) :=
  s.map fun x => if x.1 == i then (x.1, f x.2) else x

/-- Read the record with identity `i` (default only reached on dangling
identities, which well-formed callers never produce). -/
def storeGet (s : List (Nat × SugAddr)) (i : Nat) : SugAddr :=
  ((s.find? fun x => x.1 == i).map Prod.snd).getD ⟨false, 0, 0⟩

/-- `envi_set_active_suggestion`: translated statement by statement. Returns
the new environment and the list of addresses handed to the
`bandwidth_changed_cb` callback (the single outbound notification of the RL
solver). Note the source stores `htonl (new_bw_out)` into
`assigned_bw_in` in the inbound-change branch. -/
def envi_set_active_suggestion (env : SugEnv) (newAddress : Option Nat)
    (newBwIn newBwOut : Nat) (silent : Bool) : SugEnv × List Nat :=
  let addrChange := env.agent.addressInuse != newAddress
  let s1 :=
    if addrChange then
      match env.agent.addressInuse with
      | some old => storeSet env.store old (fun _ => ⟨false, 0, 0⟩)
      | none => env.store
    else env.store
  let s2 :=
    if addrChange then
      match newAddress with
      | some nw => storeSet s1 nw
          (fun _ => ⟨env.agent.active, env.agent.bwIn, env.agent.bwOut⟩)
      | none => s1
    else s1
  match newAddress with
  | some nw =>
    let s3 :=
      if (storeGet s2 nw).active != env.agent.active then
        storeSet s2 nw (fun a => { a with active := env.agent.active })
      else s2
    let inChange := env.agent.bwIn != newBwIn
    let s4 := if inChange then storeSet s3 nw (fun a => { a with bwIn := newBwOut }) else s3
    let outChange := env.agent.bwOut != newBwOut
    let s5 := if outChange then storeSet s4 nw (fun a => { a with bwOut := newBwOut }) else s4
    let agBwIn := if inChange then newBwIn else env.agent.bwIn
    let agBwOut := if outChange then newBwOut else env.agent.bwOut
    let notify := addrChange || inChange || outChange
    let calls := if notify && env.agent.active && !silent then [nw] else []
    (⟨⟨env.agent.active, agBwIn, agBwOut, some nw⟩, s5⟩, calls)
  | none =>
    match env.agent.addressInuse with
    | some old =>
      let doNotify := addrChange && env.agent.active && !silent
      let agBwIn := if doNotify then 0 else env.agent.bwIn
      let agBwOut := if doNotify then 0 else env.agent.bwOut
      (⟨⟨env.agent.active, agBwIn, agBwOut, none⟩, s2⟩, if doNotify then [old] else [])
    | none => (⟨⟨env.agent.active, env.agent.bwIn, env.agent.bwOut, none⟩, s2⟩, [])

end GnunetRil

namespace GnunetAts

/-! ### Concrete states used by the example scenarios -/

/-- Registry right after `GAS_addresses_init` with the two WAN quotas. -/
def emptyReg (quotaIn quotaOut : Nat) : RegState := ⟨[], 0, quotaIn, quotaOut, 0⟩

/-- Scenario for the at-most-one-active invariant: `WAN_QUOTA_IN = 0`,
`WAN_QUOTA_OUT = 1000`; report address `[1]` (distance 5) for peer 1, request
an address (activates `[1]`), report address `[2]` (distance 0), request
again. -/
def exTwoActive : RegState :=
  GAS_addresses_request_address
    (GAS_addresses_update
      (GAS_addresses_request_address
        (GAS_addresses_update (emptyReg 0 1000) 1 "tcp" [1] 0 [.qualityNetDistance 5])
        1)
      1 "tcp" [2] 0 [])
    1

/-- Proportional-fairness scenario: quotas 1000/1000, four peers with one
address each, all four requested (hence active). -/
def exFour : RegState :=
  (List.range 4).foldl (fun s i => GAS_addresses_request_address s (i + 1))
    ((List.range 4).foldl (fun s i => GAS_addresses_update s (i + 1) "tcp" [i + 1] 0 [])
      (emptyReg 1000 1000))

/-- The proportional-fairness scenario after destroying peer 1's address. -/
def exThree : RegState := GAS_addresses_destroy exFour 1 "tcp" [1] 0

/-- A registry with one active address whose assigned bandwidth already equals
the recomputed share, i.e. the next notification repeats the previous
`(address, bw_in, bw_out)` triple. -/
def exNotify : RegState :=
  ⟨[⟨0, 0, "tcp", [1], 0, [], 0, 0, 0, 0, 0, 0, 0, 1000, 1000, true⟩], 1, 1000, 1000, 1⟩

/-- Interface table with the single IPv4 network `192.168.0.0/24`. -/
def exTable : List ATS_Network := [⟨⟨192, 168, 0, 0⟩, ⟨255, 255, 255, 0⟩⟩]

/-- A registry holding one address of peer 3 with live session 7 and nonempty
raw address bytes. -/
def exSession : RegState :=
  ⟨[⟨0, 3, "tcp", [9], 7, [], 0, 0, 0, 0, 0, 0, 0, 42, 42, true⟩], 1, 800, 900, 1⟩

/-- A registry holding one pure-session placeholder (empty raw address) of
peer 3 with live session 7. -/
def exSessionZero : RegState :=
  ⟨[⟨0, 3, "tcp", [], 7, [], 0, 0, 0, 0, 0, 0, 0, 42, 42, true⟩], 1, 800, 900, 1⟩

end GnunetAts

namespace GnunetRil

/-- A well-formed agent for one network (`networks_count = 1`), two quality
properties (`q = 2`) and a single address: 10 action rows of 9 features. -/
def exAgent : Agent :=
  ⟨List.replicate 10 (List.replicate 9 1), 9, 10,
   List.replicate 9 0, List.replicate 9 0, 9⟩

end GnunetRil

namespace GnunetAts

/-! ### Theorems -/

theorem loopback4_eq_land (a : Ip4) : loopback4 a = (a.o1 &&& 0x7f == 0x7f) := by
  unfold loopback4
  rw [Nat.land_assoc]
  rfl

theorem find?_append_of_none {α : Type} (p : α → Bool) (l₁ l₂ : List α)
    (h : ∀ x ∈ l₁, p x = false) : (l₁ ++ l₂).find? p = l₂.find? p := by
  induction l₁ with
  | nil => rfl
  | cons x xs ih =>
    have hx : p x = false := h x (List.mem_cons_self x xs)
    rw [List.cons_append, List.find?_cons, hx]
    exact ih (fun y hy => h y (List.mem_cons_of_mem x hy))

theorem replaceFirstMatch_append_of_none (p : Nat) (s v : ATS_Address)
    (l₁ l₂ : List ATS_Address)
    (h : ∀ x ∈ l₁, (x.peer == p && compare_address s x) = false) :
    replaceFirstMatch p s v (l₁ ++ l₂) = l₁ ++ replaceFirstMatch p s v l₂ := by
  induction l₁ with
  | nil => rfl
  | cons x xs ih =>
    have hx := h x (List.mem_cons_self x xs)
    rw [List.cons_append, replaceFirstMatch, hx]
    simp only [Bool.false_eq_true, if_false, List.cons_append, List.cons.injEq, true_and]
    exact ih (fun y hy => h y (List.mem_cons_of_mem x hy))

theorem replaceFirstMatch_length (p : Nat) (s v : ATS_Address) (l : List ATS_Address) :
    (replaceFirstMatch p s v l).length = l.length := by
  induction l with
  | nil => rfl
  | cons x xs ih =>
    rw [replaceFirstMatch]
    split <;> simp [ih]

theorem update_of_find_some (st : RegState) (p : Nat) (pl : String)
    (ad : List Nat) (sid : Nat) (atsi : List AtsInfo) (old : ATS_Address)
    (hfind : find_address st p (mkAddr st.nextId p pl ad sid atsi) = some old) :
    GAS_addresses_update st p pl ad sid atsi
      = { st with
          addrs := replaceFirstMatch p (mkAddr st.nextId p pl ad sid atsi)
            (applyAtsList atsi { old with sessionId := sid, ats := atsi }) st.addrs } := by
  simp only [GAS_addresses_update, hfind]

/-- Claim C8: `GAS_addresses_update` is total and allocates exactly when no
record matches by `(plugin, raw)` or by nonzero session id; starting from a
peer with no addresses, two identical calls (session 0, no metrics) reach a
fixpoint after the first: the registry holds exactly one address for the peer
and the `find_address_it` scan returns it after either call. -/
theorem C8_update_merge_idempotent (st : RegState) (p : Nat) (pl : String)
    (ad : List Nat) (hP : peerAddrs st p = []) :
    (GAS_addresses_update (GAS_addresses_update st p pl ad 0 []) p pl ad 0 []
      = GAS_addresses_update st p pl ad 0 [])
    ∧ (peerAddrs (GAS_addresses_update st p pl ad 0 []) p).length = 1
    ∧ findBest (GAS_addresses_update st p pl ad 0 []) p
        = some (mkAddr st.nextId p pl ad 0 [])
    ∧ ∀ (st' : RegState) (pr : Nat) (pl' : String) (ad' : List Nat) (sid : Nat)
        (atsi : List AtsInfo),
        (GAS_addresses_update st' pr pl' ad' sid atsi).addrs.length =
          if (find_address st' pr (mkAddr st'.nextId pr pl' ad' sid atsi)).isSome
          then st'.addrs.length else st'.addrs.length + 1 := by
  have hnp : ∀ x ∈ st.addrs, (x.peer == p) = false := by
    intro x hx
    have := List.filter_eq_nil_iff.mp hP x hx
    simpa using this
  have hfind : find_address st p (mkAddr st.nextId p pl ad 0 []) = none := by
    apply List.find?_eq_none.mpr
    intro x hx
    simp [hnp x hx]
  have hst1 : GAS_addresses_update st p pl ad 0 []
      = { st with addrs := st.addrs ++ [mkAddr st.nextId p pl ad 0 []],
                  nextId := st.nextId + 1 } := by
    simp only [GAS_addresses_update, hfind]
    rfl
  have hpeer1 : peerAddrs (GAS_addresses_update st p pl ad 0 []) p
      = [mkAddr st.nextId p pl ad 0 []] := by
    rw [hst1]
    unfold peerAddrs
    simp only [List.filter_append, hP]
    rw [List.filter_eq_nil_iff.mpr (by intro x hx; simp [hnp x hx])]
    simp [mkAddr]
  refine ⟨?_, ?_, ?_, ?_⟩
  · -- second identical update is the identity
    rw [hst1]
    have hfind2 : find_address
        { st with addrs := st.addrs ++ [mkAddr st.nextId p pl ad 0 []],
                  nextId := st.nextId + 1 } p
        (mkAddr (st.nextId + 1) p pl ad 0 [])
        = some (mkAddr st.nextId p pl ad 0 []) := by
      show (st.addrs ++ [mkAddr st.nextId p pl ad 0 []]).find? _ = _
      rw [find?_append_of_none _ _ _ (by intro x hx; simp [hnp x hx])]
      simp [mkAddr, compare_address]
    rw [update_of_find_some _ _ _ _ _ _ _ hfind2]
    have hrepl : replaceFirstMatch p (mkAddr (st.nextId + 1) p pl ad 0 [])
        (applyAtsList [] { mkAddr st.nextId p pl ad 0 [] with sessionId := 0, ats := [] })
        (st.addrs ++ [mkAddr st.nextId p pl ad 0 []])
        = st.addrs ++ [mkAddr st.nextId p pl ad 0 []] := by
      rw [replaceFirstMatch_append_of_none _ _ _ _ _
        (by intro x hx; simp [hnp x hx])]
      rw [replaceFirstMatch, if_pos (by simp [mkAddr, compare_address])]
      rfl
    exact congrArg
      (fun l => ({ st with addrs := l, nextId := st.nextId + 1 } : RegState)) hrepl
  · rw [hpeer1]; rfl
  · unfold findBest
    rw [hpeer1]
    rfl
  · intro st' pr pl' ad' sid atsi
    cases hf : find_address st' pr (mkAddr st'.nextId pr pl' ad' sid atsi) with
    | none => simp only [GAS_addresses_update, hf]; simp
    | some old =>
      simp only [GAS_addresses_update, hf]
      simp [replaceFirstMatch_length]

theorem C8_witness :
    peerAddrs (emptyReg 5 7) 2 = []
    ∧ (GAS_addresses_update (GAS_addresses_update (emptyReg 5 7) 2 "tcp" [1, 2] 0 [])
        2 "tcp" [1, 2] 0 []
        = GAS_addresses_update (emptyReg 5 7) 2 "tcp" [1, 2] 0 [])
    ∧ (peerAddrs (GAS_addresses_update (emptyReg 5 7) 2 "tcp" [1, 2] 0 []) 2).length = 1
    ∧ findBest (GAS_addresses_update (emptyReg 5 7) 2 "tcp" [1, 2] 0 []) 2
        = some (mkAddr 0 2 "tcp" [1, 2] 0 []) :=
  ⟨by decide,
   (C8_update_merge_idempotent (emptyReg 5 7) 2 "tcp" [1, 2] (by decide)).1,
   (C8_update_merge_idempotent (emptyReg 5 7) 2 "tcp" [1, 2] (by decide)).2.1,
   (C8_update_merge_idempotent (emptyReg 5 7) 2 "tcp" [1, 2] (by decide)).2.2.1⟩

theorem filter_singleton_decomp {α : Type} (q : α → Bool) :
    ∀ (l : List α) (a : α), l.filter q = [a] →
      ∃ l₁ l₂, l = l₁ ++ a :: l₂ ∧ (∀ x ∈ l₁, q x = false)
        ∧ (∀ x ∈ l₂, q x = false) ∧ q a = true := by
  intro l
  induction l with
  | nil => intro a h; simp at h
  | cons x xs ih =>
    intro a h
    cases hx : q x with
    | true =>
      rw [List.filter_cons_of_pos hx] at h
      obtain ⟨rfl, hxs⟩ := List.cons_eq_cons.mp h
      exact ⟨[], xs, rfl, by simp,
        fun y hy => by simpa using List.filter_eq_nil_iff.mp hxs y hy, hx⟩
    | false =>
      rw [List.filter_cons_of_neg (by simp [hx])] at h
      obtain ⟨l₁, l₂, rfl, h1, h2, h3⟩ := ih a h
      exact ⟨x :: l₁, l₂, rfl,
        fun y hy => by
          rcases List.mem_cons.mp hy with rfl | hy'
          · exact hx
          · exact h1 y hy',
        h2, h3⟩

theorem findByAid_append_cons (i : Nat) (l₁ l₂ : List ATS_Address)
    (a : ATS_Address) (ha : a.aid = i) (h : ∀ x ∈ l₁, x.aid ≠ i) :
    findByAid (l₁ ++ a :: l₂) i = some a := by
  unfold findByAid
  rw [find?_append_of_none _ _ _ (fun x hx => by simp [h x hx])]
  simp [ha]

theorem replaceByAid_append_cons (i : Nat) (l₁ l₂ : List ATS_Address)
    (a v : ATS_Address) (ha : a.aid = i) (h : ∀ x ∈ l₁, x.aid ≠ i) :
    replaceByAid i v (l₁ ++ a :: l₂) = l₁ ++ v :: l₂ := by
  induction l₁ with
  | nil => simp [replaceByAid, ha]
  | cons x xs ih =>
    rw [List.cons_append, replaceByAid,
      if_neg (by simp [h x (List.mem_cons_self x xs)]), List.cons_append]
    rw [ih (fun y hy => h y (List.mem_cons_of_mem x hy))]

theorem removeByAid_append_cons (i : Nat) (l₁ l₂ : List ATS_Address)
    (a : ATS_Address) (ha : a.aid = i) (h : ∀ x ∈ l₁, x.aid ≠ i) :
    removeByAid i (l₁ ++ a :: l₂) = l₁ ++ l₂ := by
  induction l₁ with
  | nil => simp [removeByAid, ha]
  | cons x xs ih =>
    rw [List.cons_append, removeByAid,
      if_neg (by simp [h x (List.mem_cons_self x xs)]), List.cons_append]
    rw [ih (fun y hy => h y (List.mem_cons_of_mem x hy))]

theorem update_bw_addr_peer (qi qo c : Nat) (a : ATS_Address) :
    (update_bw_addr qi qo c a).peer = a.peer := by
  unfold update_bw_addr; split <;> rfl

theorem update_bw_addr_aid (qi qo c : Nat) (a : ATS_Address) :
    (update_bw_addr qi qo c a).aid = a.aid := by
  unfold update_bw_addr; split <;> rfl

theorem update_bw_addr_of_inactive (qi qo c : Nat) (a : ATS_Address)
    (h : a.active = false) : update_bw_addr qi qo c a = a := by
  unfold update_bw_addr
  rw [if_neg (by simp [h])]

theorem update_bw_addr_values (qi qo c : Nat) (a : ATS_Address)
    (h : (update_bw_addr qi qo c a).active = true) :
    (update_bw_addr qi qo c a).assignedBwIn = qi / c
    ∧ (update_bw_addr qi qo c a).assignedBwOut = qo / c := by
  cases ha : a.active with
  | true => unfold update_bw_addr; rw [if_pos (by simp [ha])]; exact ⟨rfl, rfl⟩
  | false => rw [update_bw_addr_of_inactive qi qo c a ha] at h; rw [h] at ha; cases ha

theorem filter_peer_map_update_bw (qi qo c p : Nat) (l : List ATS_Address) :
    (l.map (update_bw_addr qi qo c)).filter (fun a => a.peer == p)
      = (l.filter (fun a => a.peer == p)).map (update_bw_addr qi qo c) := by
  rw [List.filter_map]
  congr 1
  apply List.filter_congr
  intro x _
  simp [update_bw_addr_peer]

theorem addr_downgrade_of_inactive (x : ATS_Address) (hx : x.active = false) :
    ({ x with sessionId := 0, active := false } : ATS_Address)
      = { x with sessionId := 0 } := by
  cases x
  simp only at hx
  rw [← hx]

/-- Claim C5: when the stored address's session id equals the query's nonzero
session id, `GAS_addresses_destroy` clears the session to 0; if the address
was active it becomes inactive, the global counter drops by one and the
bandwidth of every remaining active address is recomputed over the shrunken
active set; the record itself is removed iff its stored raw address length is
zero, and otherwise survives with `session_id = 0`. -/
theorem C5_session_downgrade (st : RegState) (p : Nat) (aa : ATS_Address)
    (pl : String) (ad : List Nat) (sid : Nat)
    (hnodup : (st.addrs.map (fun a => a.aid)).Nodup)
    (hP : peerAddrs st p = [aa])
    (hsess : aa.sessionId = sid) (hnz : sid ≠ 0)
    (hcnt : st.activeAddrCount = countActive st) :
    (aa.addr.length = 0 → peerAddrs (GAS_addresses_destroy st p pl ad sid) p = [])
    ∧ (aa.addr.length ≠ 0 →
        peerAddrs (GAS_addresses_destroy st p pl ad sid) p
          = [{ aa with sessionId := 0, active := false }])
    ∧ (GAS_addresses_destroy st p pl ad sid).activeAddrCount
        = st.activeAddrCount - (if aa.active then 1 else 0)
    ∧ (aa.active = true → ∀ b ∈ (GAS_addresses_destroy st p pl ad sid).addrs,
        b.active = true →
          b.assignedBwIn = st.wanQuotaIn / (countActive st - 1)
          ∧ b.assignedBwOut = st.wanQuotaOut / (countActive st - 1)) := by
  subst hsess
  obtain ⟨addrs0, cnt, qi, qo, nid⟩ := st
  obtain ⟨aaid, apeer, aplg, aaddr, asess, aats, alat, auin, auout, adist,
    acw, acl, acwl, abin, about, aact⟩ := aa
  simp only [peerAddrs] at hP
  replace hnz : asess ≠ 0 := hnz
  obtain ⟨l₁, l₂, hdec, h1, h2, hpa⟩ :=
    filter_singleton_decomp (fun a => a.peer == p) addrs0 _ hP
  subst hdec
  replace hcnt : cnt = countActive
      (⟨l₁ ++ ⟨aaid, apeer, aplg, aaddr, asess, aats, alat, auin, auout, adist,
        acw, acl, acwl, abin, about, aact⟩ :: l₂, cnt, qi, qo, nid⟩ : RegState) := hcnt
  have hmapno : ((l₁.map (fun a => a.aid)) ++ aaid :: l₂.map (fun a => a.aid)).Nodup := by
    simpa using hnodup
  obtain ⟨hn1, hn2, hdisj⟩ := List.nodup_append.mp hmapno
  have hf1 : ∀ x ∈ l₁, x.aid ≠ aaid := fun x hx heq =>
    hdisj (List.mem_map_of_mem _ hx) (by rw [heq]; exact List.mem_cons_self _ _)
  have hf1m : ∀ x ∈ l₁.map (update_bw_addr qi qo (cnt - 1)), x.aid ≠ aaid := by
    intro x hx
    obtain ⟨y, hy, rfl⟩ := List.mem_map.mp hx
    rw [update_bw_addr_aid]
    exact hf1 y hy
  have hz : (asess == 0) = false := by simpa using hnz
  have hids : (peerAddrs ⟨l₁ ++ ⟨aaid, apeer, aplg, aaddr, asess, aats, alat,
      auin, auout, adist, acw, acl, acwl, abin, about, aact⟩ :: l₂, cnt, qi, qo, nid⟩
        p).map (fun a => a.aid) = [aaid] := by
    simp only [peerAddrs, hP, List.map_cons, List.map_nil]
  have hfind : findByAid (l₁ ++ ⟨aaid, apeer, aplg, aaddr, asess, aats, alat,
      auin, auout, adist, acw, acl, acwl, abin, about, aact⟩ :: l₂) aaid
      = some ⟨aaid, apeer, aplg, aaddr, asess, aats, alat, auin, auout, adist,
        acw, acl, acwl, abin, about, aact⟩ :=
    findByAid_append_cons aaid l₁ l₂ _ rfl hf1
  unfold GAS_addresses_destroy
  rw [hids]
  simp only [List.foldl_cons, List.foldl_nil, destroy_by_session_id, hfind, hz,
    Bool.false_and, Bool.false_eq_true, if_false, bne_self_eq_false]
  rw [replaceByAid_append_cons aaid l₁ l₂
    ⟨aaid, apeer, aplg, aaddr, asess, aats, alat, auin, auout, adist,
      acw, acl, acwl, abin, about, aact⟩
    ⟨aaid, apeer, aplg, aaddr, 0, aats, alat, auin, auout, adist,
      acw, acl, acwl, abin, about, aact⟩ rfl hf1]
  rw [replaceByAid_append_cons aaid l₁ l₂
    ⟨aaid, apeer, aplg, aaddr, 0, aats, alat, auin, auout, adist,
      acw, acl, acwl, abin, about, aact⟩
    ⟨aaid, apeer, aplg, aaddr, 0, aats, alat, auin, auout, adist,
      acw, acl, acwl, abin, about, false⟩ rfl hf1]
  cases aact with
  | true =>
    simp only [if_true]
    by_cases hlen : aaddr.length = 0
    · -- active, raw length zero: downgrade, recompute, then remove
      simp only [hlen, beq_self_eq_true, if_true]
      simp only [destroy_address, recalculate_assigned_bw, List.map_append,
        List.map_cons,
        update_bw_addr_of_inactive qi qo (cnt - 1)
          ⟨aaid, apeer, aplg, aaddr, 0, aats, alat, auin, auout, adist,
            acw, acl, acwl, abin, about, false⟩ rfl]
      rw [findByAid_append_cons aaid (l₁.map (update_bw_addr qi qo (cnt - 1)))
        (l₂.map (update_bw_addr qi qo (cnt - 1)))
        ⟨aaid, apeer, aplg, aaddr, 0, aats, alat, auin, auout, adist,
          acw, acl, acwl, abin, about, false⟩ rfl hf1m]
      simp only [Bool.false_eq_true, if_false]
      rw [removeByAid_append_cons aaid (l₁.map (update_bw_addr qi qo (cnt - 1)))
        (l₂.map (update_bw_addr qi qo (cnt - 1)))
        ⟨aaid, apeer, aplg, aaddr, 0, aats, alat, auin, auout, adist,
          acw, acl, acwl, abin, about, false⟩ rfl hf1m]
      refine ⟨fun _ => ?_, fun hcon => absurd rfl hcon, ?_, fun _ b hb hbact => ?_⟩
      · simp only [peerAddrs, List.filter_append]
        rw [List.filter_eq_nil_iff.mpr (by
            intro x hx
            obtain ⟨y, hy, rfl⟩ := List.mem_map.mp hx
            simp [update_bw_addr_peer, h1 y hy]),
          List.filter_eq_nil_iff.mpr (by
            intro x hx
            obtain ⟨y, hy, rfl⟩ := List.mem_map.mp hx
            simp [update_bw_addr_peer, h2 y hy])]
        rfl
      · simp
      · simp only [List.mem_append] at hb
        rw [← hcnt]
        rcases hb with hb | hb <;>
        · obtain ⟨y, hy, rfl⟩ := List.mem_map.mp hb
          exact update_bw_addr_values qi qo (cnt - 1) y hbact
    · -- active, raw length nonzero: downgrade in place and recompute
      simp only [show (aaddr.length == 0) = false by simpa using hlen,
        Bool.false_eq_true, if_false]
      simp only [recalculate_assigned_bw, List.map_append, List.map_cons,
        update_bw_addr_of_inactive qi qo (cnt - 1)
          ⟨aaid, apeer, aplg, aaddr, 0, aats, alat, auin, auout, adist,
            acw, acl, acwl, abin, about, false⟩ rfl]
      refine ⟨fun hcon => absurd hcon hlen, fun _ => ?_, ?_, fun _ b hb hbact => ?_⟩
      · simp only [peerAddrs, List.filter_append, List.filter_cons]
        rw [List.filter_eq_nil_iff.mpr (by
            intro x hx
            obtain ⟨y, hy, rfl⟩ := List.mem_map.mp hx
            simp [update_bw_addr_peer, h1 y hy]),
          List.filter_eq_nil_iff.mpr (by
            intro x hx
            obtain ⟨y, hy, rfl⟩ := List.mem_map.mp hx
            simp [update_bw_addr_peer, h2 y hy])]
        simp [hpa]
      · simp
      · simp only [List.mem_append, List.mem_cons] at hb
        rw [← hcnt]
        rcases hb with hb | hb | hb
        · obtain ⟨y, hy, rfl⟩ := List.mem_map.mp hb
          exact update_bw_addr_values qi qo (cnt - 1) y hbact
        · rw [hb] at hbact; simp at hbact
        · obtain ⟨y, hy, rfl⟩ := List.mem_map.mp hb
          exact update_bw_addr_values qi qo (cnt - 1) y hbact
  | false =>
    simp only [Bool.false_eq_true, if_false]
    by_cases hlen : aaddr.length = 0
    · -- inactive placeholder: remove without touching the counter
      simp only [hlen, beq_self_eq_true, if_true]
      simp only [destroy_address]
      rw [findByAid_append_cons aaid l₁ l₂
        ⟨aaid, apeer, aplg, aaddr, 0, aats, alat, auin, auout, adist,
          acw, acl, acwl, abin, about, false⟩ rfl hf1]
      simp only [Bool.false_eq_true, if_false]
      rw [removeByAid_append_cons aaid l₁ l₂
        ⟨aaid, apeer, aplg, aaddr, 0, aats, alat, auin, auout, adist,
          acw, acl, acwl, abin, about, false⟩ rfl hf1]
      refine ⟨fun _ => ?_, fun hcon => absurd rfl hcon, by simp, fun hcon => nomatch hcon⟩
      simp only [peerAddrs, List.filter_append]
      rw [List.filter_eq_nil_iff.mpr (by intro x hx; simp [h1 x hx]),
        List.filter_eq_nil_iff.mpr (by intro x hx; simp [h2 x hx])]
      rfl
    · -- inactive, raw length nonzero: only the session id is cleared
      simp only [show (aaddr.length == 0) = false by simpa using hlen,
        Bool.false_eq_true, if_false]
      refine ⟨fun hcon => absurd hcon hlen, fun _ => ?_, by simp, fun hcon => nomatch hcon⟩
      simp only [peerAddrs, List.filter_append, List.filter_cons]
      rw [List.filter_eq_nil_iff.mpr (by intro x hx; simp [h1 x hx]),
        List.filter_eq_nil_iff.mpr (by intro x hx; simp [h2 x hx])]
      simp [hpa]

theorem C5_witness :
    peerAddrs (GAS_addresses_destroy exSession 3 "tcp" [] 7) 3
      = [⟨0, 3, "tcp", [9], 0, [], 0, 0, 0, 0, 0, 0, 0, 42, 42, false⟩]
    ∧ (GAS_addresses_destroy exSession 3 "tcp" [] 7).activeAddrCount = 0
    ∧ peerAddrs (GAS_addresses_destroy exSessionZero 3 "tcp" [] 7) 3 = [] := by
  have h1 := C5_session_downgrade exSession 3
    ⟨0, 3, "tcp", [9], 7, [], 0, 0, 0, 0, 0, 0, 0, 42, 42, true⟩ "tcp" [] 7
    (by decide) (by decide) rfl (by decide) (by decide)
  have h2 := C5_session_downgrade exSessionZero 3
    ⟨0, 3, "tcp", [], 7, [], 0, 0, 0, 0, 0, 0, 0, 42, 42, true⟩ "tcp" [] 7
    (by decide) (by decide) rfl (by decide) (by decide)
  refine ⟨?_, ?_, h2.1 rfl⟩
  · exact h1.2.1 (by decide)
  · rw [h1.2.2.1]
    decide

/-- Claim C1: the at-most-one-active invariant fails on the code. Starting
from quotas `WAN_QUOTA_IN = 0`, `WAN_QUOTA_OUT = 1000`, reporting address
`[1]` (distance 5) for peer 1, requesting an address, reporting address `[2]`
(distance 0) and requesting again leaves peer 1 with two active addresses:
`find_address_it` does not stick to the already-active address when its
assigned inbound bandwidth is zero, and `GAS_addresses_request_address`
activates the newly selected one without deactivating the old one. -/
theorem C1_two_active_addresses :
    countActivePeer exTwoActive 1 = 2 ∧ exTwoActive.activeAddrCount = 2 := by
  decide

/-- Claim C2: on every recomputation each active address is assigned
`wan_quota / active_count` in each direction (integer division, the two
directions independent), where the counter equals the number of active
addresses. -/
theorem C2_proportional_share (st : RegState)
    (h : st.activeAddrCount = countActive st) :
    ∀ a ∈ (recalculate_assigned_bw st).addrs, a.active = true →
      a.assignedBwIn = st.wanQuotaIn / countActive st
      ∧ a.assignedBwOut = st.wanQuotaOut / countActive st := by
  intro a ha hact
  unfold recalculate_assigned_bw at ha
  simp only [List.mem_map] at ha
  obtain ⟨b, hb, rfl⟩ := ha
  cases hbact : b.active with
  | false => rw [update_bw_addr, if_neg (by simp [hbact])] at hact; rw [hact] at hbact; cases hbact
  | true => rw [update_bw_addr, if_pos (by simp [hbact])]; rw [h]; exact ⟨rfl, rfl⟩

set_option maxRecDepth 8000 in
theorem C2_witness :
    (exFour.activeAddrCount = countActive exFour
      ∧ ∀ a ∈ (recalculate_assigned_bw exFour).addrs, a.active = true →
          a.assignedBwIn = exFour.wanQuotaIn / countActive exFour
          ∧ a.assignedBwOut = exFour.wanQuotaOut / countActive exFour)
    ∧ exFour.addrs.map (fun a => a.assignedBwOut) = [250, 250, 250, 250]
    ∧ exThree.addrs.map (fun a => a.assignedBwOut) = [333, 333, 333]
    ∧ exThree.activeAddrCount = 3 :=
  ⟨⟨by decide, C2_proportional_share exFour (by decide)⟩, by decide, by decide, by decide⟩

/-- Claim C3 (counterexample): with interface table `[(192.168.0.0/24)]`, the
code classifies `192.169.0.5` as LAN (its test is `((addr & mask) & net) ==
net`), while the claim's condition `(addr & mask) == network` classifies it
as WAN. -/
theorem C3_counterexample :
    GAS_addresses_type exTable ⟨192, 169, 0, 5⟩ = .lan
    ∧ specClassify exTable ⟨192, 169, 0, 5⟩ = .wan := by
  decide

/-- Claim C3 (amended): for a non-loopback IPv4 address, the code returns LAN
iff some interface-table entry satisfies `((addr & mask) & network) ==
network` (first match wins), and WAN otherwise. -/
theorem C3_lan_iff_masked_match (table : List ATS_Network) (a : Ip4)
    (h : loopback4 a = false) :
    (GAS_addresses_type table a = .lan
      ↔ ∃ e ∈ table, (a.land e.netmask).land e.network = e.network)
    ∧ (GAS_addresses_type table a = .wan
      ↔ ¬ ∃ e ∈ table, (a.land e.netmask).land e.network = e.network) := by
  have key : (∃ e ∈ table, (a.land e.netmask).land e.network = e.network)
      ↔ (table.find? (lanMatch a)).isSome := by
    rw [List.find?_isSome]
    simp [lanMatch]
  unfold GAS_addresses_type
  rw [h]
  cases hfind : table.find? (lanMatch a) <;>
    simp [key, hfind]

theorem C3_witness :
    (loopback4 ⟨192, 168, 0, 5⟩ = false
      ∧ GAS_addresses_type exTable ⟨192, 168, 0, 5⟩ = .lan)
    ∧ (loopback4 ⟨8, 8, 8, 8⟩ = false
      ∧ GAS_addresses_type exTable ⟨8, 8, 8, 8⟩ = .wan) :=
  ⟨⟨by decide, (C3_lan_iff_masked_match exTable ⟨192, 168, 0, 5⟩ (by decide)).1.mpr
      (by decide)⟩,
   ⟨by decide, (C3_lan_iff_masked_match exTable ⟨8, 8, 8, 8⟩ (by decide)).2.mpr
      (by decide)⟩⟩

set_option maxRecDepth 8000 in
/-- Claim C10: the IPv4 loopback test keeps only the seven low bits of the
leading octet: for any interface table, an IPv4 address is classified
LOOPBACK iff `o1 & 0x7f == 0x7f`, i.e. iff the first octet is 127 or 255. -/
theorem C10_loopback_seven_bits (table : List ATS_Network) (a : Ip4)
    (h : a.o1 < 256) :
    (GAS_addresses_type table a = .loopback ↔ a.o1 &&& 0x7f = 0x7f)
    ∧ (a.o1 &&& 0x7f = 0x7f ↔ (a.o1 = 127 ∨ a.o1 = 255)) := by
  have hchar : ∀ b : Nat, b < 256 → ((b &&& 0x7f = 0x7f) ↔ (b = 127 ∨ b = 255)) := by
    decide
  refine ⟨?_, hchar a.o1 h⟩
  unfold GAS_addresses_type
  rw [loopback4_eq_land]
  by_cases hc : a.o1 &&& 0x7f = 0x7f
  · simp [hc]
  · cases hfind : table.find? (lanMatch a) <;> simp [hfind, hc]

theorem C10_witness :
    ((255 : Nat) < 256 ∧ GAS_addresses_type exTable ⟨255, 0, 0, 1⟩ = .loopback)
    ∧ ((126 : Nat) < 256 ∧ GAS_addresses_type exTable ⟨126, 0, 0, 1⟩ ≠ .loopback) := by
  constructor
  · exact ⟨by norm_num,
      (C10_loopback_seven_bits exTable ⟨255, 0, 0, 1⟩ (by norm_num)).1.mpr (by decide)⟩
  · refine ⟨by norm_num, fun hl => ?_⟩
    exact absurd
      ((C10_loopback_seven_bits exTable ⟨126, 0, 0, 1⟩ (by norm_num)).1.mp hl)
      (by decide)

/-- Claim C9 (counterexample): the proportional path has no idempotence
check. With one active address whose assigned bandwidth already equals the
recomputed share, the recomputation is a state fixpoint, yet running it a
second time issues a second, identical call to each of the three outbound
collaborators (scheduling suggestion, reservation update, performance
notification) instead of none. -/
theorem C9_counterexample :
    recalculate_assigned_bw exNotify = exNotify
    ∧ schedulingCalls exNotify = [⟨0, 0, 1000, 1000⟩]
    ∧ reservationCalls exNotify = [(0, 1000)]
    ∧ performanceCalls exNotify = [⟨0, 0, 1000, 1000⟩]
    ∧ schedulingCalls (recalculate_assigned_bw exNotify) = [⟨0, 0, 1000, 1000⟩] := by
  decide

end GnunetAts

namespace GnunetRil

/-- Claim C6: `RIL_E_SET` assigns `γ·λ` to every component of the eligibility
trace instead of multiplying by it. At `e = [2]`, `γ = 1/2`, `λ = 3/5` the
code produces `[3/10]`, whereas decay by the factor `γλ` would give `[3/5]`;
the `RIL_E_ACCUMULATE` part of the claim (add 1 to every slot, accumulating)
does hold, so the SARSA step maps `[2]` to `[3/10 + 1]`. -/
theorem C6_set_assigns_not_multiplies :
    agent_modify_eligibility (1/2) (3/5) .eSet [2] = [3/10]
    ∧ ((1 : ℚ)/2 * (3/5)) * 2 = 3/5
    ∧ ((3 : ℚ)/10) ≠ 3/5
    ∧ sarsaStepEligibility (1/2) (3/5) [2] = [13/10]
    ∧ agent_modify_eligibility (1/2) (3/5) .eAccumulate [2] = [3] := by
  refine ⟨?_, by norm_num, by norm_num, ?_, ?_⟩
  · simp [agent_modify_eligibility]; norm_num
  · simp [sarsaStepEligibility, agent_modify_eligibility]; norm_num
  · simp [agent_modify_eligibility]; norm_num

/-- Claim C7: halving or decrementing the bandwidth in either direction never
leaves the acted-on component below `min_bw`, and when no unsigned overflow
occurs the increment step is exactly `5 * min_bw`. -/
theorem C7_bw_actions_bounded (minBw : Nat) (a : BwPair) :
    minBw ≤ (envi_action_bw_halven true minBw a).bwIn
    ∧ minBw ≤ (envi_action_bw_halven false minBw a).bwOut
    ∧ minBw ≤ (envi_action_bw_dec true minBw a).bwIn
    ∧ minBw ≤ (envi_action_bw_dec false minBw a).bwOut
    ∧ (5 * minBw < 2 ^ 32 → a.bwIn + 5 * minBw < 2 ^ 64 →
        (envi_action_bw_inc true minBw a).bwIn = a.bwIn + 5 * minBw)
    ∧ (5 * minBw < 2 ^ 32 → a.bwOut + 5 * minBw < 2 ^ 64 →
        (envi_action_bw_inc false minBw a).bwOut = a.bwOut + 5 * minBw) := by
  refine ⟨?_, ?_, ?_, ?_, ?_, ?_⟩
  · simp only [envi_action_bw_halven, bw_halven, if_true]
    split <;> omega
  · simp only [envi_action_bw_halven, bw_halven, Bool.false_eq_true, if_false]
    split <;> omega
  · simp only [envi_action_bw_dec, bw_dec, if_true]
    split <;> omega
  · simp only [envi_action_bw_dec, bw_dec, Bool.false_eq_true, if_false]
    split <;> omega
  · intro h1 h2
    simp only [envi_action_bw_inc, bw_inc, if_true]
    rw [Nat.mod_eq_of_lt h1, Nat.mod_eq_of_lt h2]
  · intro h1 h2
    simp only [envi_action_bw_inc, bw_inc, Bool.false_eq_true, if_false]
    rw [Nat.mod_eq_of_lt h1, Nat.mod_eq_of_lt h2]

theorem C7_witness :
    (5 * 65536 < 2 ^ 32 ∧ 700000 + 5 * 65536 < 2 ^ 64)
    ∧ 65536 ≤ (envi_action_bw_halven true 65536 ⟨700000, 80000⟩).bwIn
    ∧ 65536 ≤ (envi_action_bw_dec false 65536 ⟨700000, 80000⟩).bwOut
    ∧ (envi_action_bw_inc true 65536 ⟨700000, 80000⟩).bwIn = 700000 + 5 * 65536 :=
  ⟨⟨by norm_num, by norm_num⟩,
   (C7_bw_actions_bounded 65536 ⟨700000, 80000⟩).1,
   (C7_bw_actions_bounded 65536 ⟨700000, 80000⟩).2.2.2.1,
   (C7_bw_actions_bounded 65536 ⟨700000, 80000⟩).2.2.2.2.1 (by norm_num) (by norm_num)⟩

theorem ril_cut_eq_take_drop (holeStart holeLen m : Nat) (r : List ℚ)
    (hr : r.length = m) :
    ril_cut_from_vector holeStart holeLen m r
      = r.take holeStart ++ r.drop (holeStart + holeLen) := by
  unfold ril_cut_from_vector
  congr 1
  rw [show m - holeStart - holeLen = (r.drop (holeStart + holeLen)).length by
    rw [List.length_drop, hr, Nat.sub_sub]]
  exact List.take_length _

/-- Claim C4: growing an agent by one address appends one zeroed action-row
and `3+q` zeroed feature columns to every existing row (and to `s_old` and
`e`), leaving every previously learned weight in place; deleting the address
at index `idx` removes exactly its `3+q` contiguous columns from every row,
removes the switch-action row `RIL_ACTION_TYPE_NUM + idx`, decrements a
stored last action greater than that switch action by one, invalidates it on
an exact match, and leaves smaller last actions alone. -/
theorem C4_resize_preserves_weights (q networksCount k kB idx : Nat)
    (ag B : Agent) (wfA : AgentWF q networksCount k ag)
    (wfB : AgentWF q networksCount kB B) (_hidx : idx < kB) :
    ((GAS_ril_address_add_matrix q ag).W
        = ag.W.map (fun r => r ++ zeros (featAddr q)) ++ [zeros (ag.m + featAddr q)]
      ∧ (GAS_ril_address_add_matrix q ag).n = ag.n + 1
      ∧ (GAS_ril_address_add_matrix q ag).m = ag.m + featAddr q
      ∧ (GAS_ril_address_add_matrix q ag).W.length = ag.n + 1
      ∧ (GAS_ril_address_add_matrix q ag).sOld = ag.sOld ++ zeros (featAddr q)
      ∧ (GAS_ril_address_add_matrix q ag).e = ag.e ++ zeros (featAddr q))
    ∧ ((GAS_ril_address_delete_matrix networksCount q idx B).W
        = (B.W.map (fun r =>
            r.take (networksCount * RIL_FEATURES_NETWORK_COUNT + idx * featAddr q)
            ++ r.drop (networksCount * RIL_FEATURES_NETWORK_COUNT + idx * featAddr q
                + featAddr q))).eraseIdx (RIL_ACTION_TYPE_NUM + idx)
      ∧ (GAS_ril_address_delete_matrix networksCount q idx B).n = B.n - 1
      ∧ (GAS_ril_address_delete_matrix networksCount q idx B).m = B.m - featAddr q
      ∧ (GAS_ril_address_delete_matrix networksCount q idx B).sOld
          = B.sOld.take (networksCount * RIL_FEATURES_NETWORK_COUNT + idx * featAddr q)
            ++ B.sOld.drop (networksCount * RIL_FEATURES_NETWORK_COUNT + idx * featAddr q
                + featAddr q)
      ∧ (GAS_ril_address_delete_matrix networksCount q idx B).e
          = B.e.take (networksCount * RIL_FEATURES_NETWORK_COUNT + idx * featAddr q)
            ++ B.e.drop (networksCount * RIL_FEATURES_NETWORK_COUNT + idx * featAddr q
                + featAddr q)
      ∧ (((RIL_ACTION_TYPE_NUM + idx : Nat) : Int) < B.aOld →
          (GAS_ril_address_delete_matrix networksCount q idx B).aOld = B.aOld - 1)
      ∧ (B.aOld = ((RIL_ACTION_TYPE_NUM + idx : Nat) : Int) →
          (GAS_ril_address_delete_matrix networksCount q idx B).aOld = -1)
      ∧ (B.aOld < ((RIL_ACTION_TYPE_NUM + idx : Nat) : Int) →
          (GAS_ril_address_delete_matrix networksCount q idx B).aOld = B.aOld)) := by
  obtain ⟨hnA, hmA, hWlenA, hrowsA, hsA, heA⟩ := wfA
  obtain ⟨hnB, hmB, hWlenB, hrowsB, hsB, heB⟩ := wfB
  have hW1 : B.W.map (ril_cut_from_vector
        (networksCount * RIL_FEATURES_NETWORK_COUNT + idx * featAddr q) (featAddr q) B.m)
      = B.W.map (fun r =>
          r.take (networksCount * RIL_FEATURES_NETWORK_COUNT + idx * featAddr q)
          ++ r.drop (networksCount * RIL_FEATURES_NETWORK_COUNT + idx * featAddr q
              + featAddr q)) :=
    List.map_congr_left (fun r hr => ril_cut_eq_take_drop _ _ _ r (hrowsB r hr))
  refine ⟨⟨?_, rfl, rfl, ?_, ?_, ?_⟩, ⟨?_, rfl, rfl, ?_, ?_, ?_, ?_, ?_⟩⟩
  · simp only [GAS_ril_address_add_matrix]
    congr 1
    apply List.map_congr_left
    intro r hr
    rw [← hrowsA r hr, List.take_length]
  · simp only [GAS_ril_address_add_matrix, List.length_append, List.length_map,
      List.length_singleton, hWlenA]
  · simp only [GAS_ril_address_add_matrix]
    rw [← hsA, List.take_length]
  · simp only [GAS_ril_address_add_matrix]
    rw [← heA, List.take_length]
  · simp only [GAS_ril_address_delete_matrix]
    rw [hW1, List.eraseIdx_eq_take_drop_succ]
    congr 1
    rw [show B.n - (RIL_ACTION_TYPE_NUM + idx) - 1
        = ((B.W.map (fun r =>
            r.take (networksCount * RIL_FEATURES_NETWORK_COUNT + idx * featAddr q)
            ++ r.drop (networksCount * RIL_FEATURES_NETWORK_COUNT + idx * featAddr q
                + featAddr q))).drop (RIL_ACTION_TYPE_NUM + idx + 1)).length by
      rw [List.length_drop, List.length_map, hWlenB, Nat.sub_sub]]
    exact List.take_length _
  · simp only [GAS_ril_address_delete_matrix]
    exact ril_cut_eq_take_drop _ _ _ _ hsB
  · simp only [GAS_ril_address_delete_matrix]
    exact ril_cut_eq_take_drop _ _ _ _ heB
  · intro h
    simp only [GAS_ril_address_delete_matrix]
    rw [if_pos h]
  · intro h
    simp only [GAS_ril_address_delete_matrix]
    rw [if_neg (by rw [h]; exact lt_irrefl _), if_pos (by rw [h]; exact beq_self_eq_true _)]
  · intro h
    simp only [GAS_ril_address_delete_matrix]
    rw [if_neg (lt_asymm h), if_neg (by rw [beq_iff_eq]; exact ne_of_lt h)]

theorem C4_witness :
    (AgentWF 2 1 1 exAgent ∧ AgentWF 2 1 2 (GAS_ril_address_add_matrix 2 exAgent)
      ∧ (0 : Nat) < 2)
    ∧ (GAS_ril_address_add_matrix 2 exAgent).W
        = exAgent.W.map (fun r => r ++ zeros 5) ++ [zeros 14]
    ∧ (GAS_ril_address_delete_matrix 1 2 0 (GAS_ril_address_add_matrix 2 exAgent)).W
        = ((GAS_ril_address_add_matrix 2 exAgent).W.map
            (fun r => r.take 4 ++ r.drop 9)).eraseIdx 9
    ∧ (GAS_ril_address_delete_matrix 1 2 0 (GAS_ril_address_add_matrix 2 exAgent)).aOld
        = -1 := by
  have hwfa : AgentWF 2 1 1 exAgent :=
    ⟨by decide, by decide, by decide, by decide, by decide, by decide⟩
  have hwfb : AgentWF 2 1 2 (GAS_ril_address_add_matrix 2 exAgent) :=
    ⟨by decide, by decide, by decide, by decide, by decide, by decide⟩
  have h := C4_resize_preserves_weights 2 1 1 2 0 exAgent
    (GAS_ril_address_add_matrix 2 exAgent) hwfa hwfb (by norm_num)
  exact ⟨⟨hwfa, hwfb, by norm_num⟩, h.1.1, h.2.1, h.2.2.2.2.2.2.2.1 (by decide)⟩

/-- Claim C9 (amended): the RL solver's suggestion path is idempotent — a
second `envi_set_active_suggestion` with the identical (address, bw_in,
bw_out) triple performs no downstream call at all (its single downstream
collaborator is the bandwidth-changed callback). -/
theorem C9_ril_suggestion_idempotent (env : SugEnv) (i newBwIn newBwOut : Nat) :
    (envi_set_active_suggestion
      (envi_set_active_suggestion env (some i) newBwIn newBwOut false).1
      (some i) newBwIn newBwOut false).2 = [] := by
  have h1 : (envi_set_active_suggestion env (some i) newBwIn newBwOut false).1.agent
      = ⟨env.agent.active, newBwIn, newBwOut, some i⟩ := by
    simp only [envi_set_active_suggestion]
    by_cases hin : env.agent.bwIn = newBwIn <;>
      by_cases hout : env.agent.bwOut = newBwOut <;>
        simp [hin, hout]
  have h2 : ∀ env' : SugEnv,
      env'.agent = ⟨env.agent.active, newBwIn, newBwOut, some i⟩ →
      (envi_set_active_suggestion env' (some i) newBwIn newBwOut false).2 = [] := by
    intro env' h
    simp only [envi_set_active_suggestion, h]
    simp
  exact h2 _ h1

end GnunetRil
